import Mathlib

/-!
Verification of the latent-diffusion sampling engine in `src/core/sdsetup.py`
(class `SDfu`).  The guidance arithmetic acts pointwise on tensors, so tensor
values are modelled as rationals; lists model the batch-row and channel axes
where the code concatenates along them.  The scheduler, the UNet denoiser and
the VAE are external sub-models: their outputs enter the development as opaque
parameters (the full schedule as an abstract descending list, the per-step
latent update as an abstract function, the per-branch noise predictions as a
list of values).
-/

namespace SDfu

/-- Modelled from the spec: presence test for an optional input.  The helpers
`isset` and `isok` live in `src/core/utils.py`, which is not among the source
files; the spec reads them as plain presence of the optional value
("if an inpainting mask and masked-latent are present", "inpainting-architecture
model invoked without a mask"). -/
def isok {α : Type} (x : Option α) : Bool := x.isSome

/-- The configuration fields of `a` that `final_setup` and `set_steps` read. -/
structure Args where
  mask : Option String
  img_scale : Option ℚ
  cfg_scale : ℚ
  steps : ℕ
  strength : ℚ

/-- `self.inpaintmod = uchannels==9` (sdsetup.py, final_setup). -/
def inpaintmodOf (uchannels : ℕ) : Bool := uchannels == 9

/-- `self.depthmod = uchannels==5` (sdsetup.py, final_setup). -/
def depthmodOf (uchannels : ℕ) : Bool := uchannels == 5

/-- Python slice `l[-k:]` for `k : ℕ`: the last `k` entries, i.e. all of `l`
when `k = 0` (since `l[-0:]` is `l[0:]`) and all of `l` when `k ≥ len(l)`. -/
def pySliceLast {α : Type} (l : List α) (k : ℕ) : List α :=
  if k = 0 then l else l.drop (l.length - k)

/-- `steps = min(int(steps * strength), steps)` in `set_steps`; Python `int`
truncates, which on the nonnegative range is the floor. -/
def effSteps (steps : ℕ) (strength : ℚ) : ℕ :=
  min (⌊(steps : ℚ) * strength⌋.toNat) steps

/-- `set_steps(steps, strength, warmup)`: the scheduler's full descending
schedule (`timesteps` for the residual family, `sigmas` for the ODE family,
both sliced by the same expression `[-steps - warmup :]`) is cut to its last
`effSteps + warmup` entries. -/
def set_steps (full : List ℚ) (steps : ℕ) (strength : ℚ) (warmup : ℕ) : List ℚ :=
  pySliceLast full (effSteps steps strength + warmup)

/-- The residual-family sampling loop `for t in self.timesteps[offset:]` in
`generate`: one denoise call (UNet forward plus `scheduler.step`) per
iteration.  `stepFn` abstracts the per-step latent update; the second
component counts the denoise calls performed. -/
def sampleLoop (stepFn : ℚ → ℚ → ℚ) (timesteps : List ℚ) (offset : ℕ) (lat0 : ℚ) : ℚ × ℕ :=
  (timesteps.drop offset).foldl (fun p t => (stepFn t p.1, p.2 + 1)) (lat0, 0)

/-- `final_setup` reduced to its configuration checks and schedule set-up:
the inpaint-mask assert (`assert not (self.inpaintmod and not isset(a, 'mask'))`),
then for instruct-pix2pix the assert
`assert not (self.use_cnet or a.cfg_scale in [0,1])` followed by the
`a.strength = 1.` overwrite, then `self.set_steps(a.steps, a.strength)`. -/
def final_setup (uchannels : ℕ) (use_cnet : Bool) (a : Args) (full : List ℚ) :
    Except String (Args × List ℚ) :=
  if inpaintmodOf uchannels = true ∧ isok a.mask = false then
    Except.error ("!! Inpainting model requires mask !!")
  else if isok a.img_scale = true then
    if use_cnet = true ∨ a.cfg_scale = 0 ∨ a.cfg_scale = 1 then
      Except.error ("Use either Instruct-pix2pix or Controlnet guidance")
    else
      Except.ok (Args.mk a.mask a.img_scale a.cfg_scale a.steps 1,
        set_steps full a.steps 1 1)
  else
    Except.ok (a, set_steps full a.steps a.strength 1)

/-- A torch random generator, identified by the seed it was created from
(`torch.Generator("cuda").manual_seed(self.seed)`). -/
structure Generator where
  seedVal : ℕ

/-- `int((time.time()%1)*69696)` from `setseed`; `timeFrac` stands for the
fractional part `time.time()%1`, a value in `[0, 1)`. -/
def timeSeed (timeFrac : ℚ) : ℕ := ⌊timeFrac * 69696⌋.toNat

/-- `self.seed = seed or int((time.time()%1)*69696)`: Python `or` discards a
falsy seed, i.e. the argument 0 as well as None. -/
def storedSeed (seed : Option ℕ) (timeFrac : ℚ) : ℕ :=
  match seed with
  | none => timeSeed timeFrac
  | some k => if k = 0 then timeSeed timeFrac else k

/-- `setseed(seed)`: store the (possibly replaced) seed, then build a fresh
generator from the stored value. -/
def setseed (seed : Option ℕ) (timeFrac : ℚ) : ℕ × Generator :=
  (storedSeed seed timeFrac, Generator.mk (storedSeed seed timeFrac))

/-- Weight normalisation at the top of `generate`:
`if cws is None or not len(cws) == len(cs): cws = [1 / len(cs)] * len(cs)`. -/
def cwsFix (cws : Option (List ℚ)) (n : ℕ) : List ℚ :=
  match cws with
  | none => List.replicate n (1 / (n : ℚ))
  | some w => if w.length = n then w else List.replicate n (1 / (n : ℚ))

/-- `uc = uc.repeat(self.a.batch, 1, 1)`: tiles the unconditional rows
`batch` times (executed only when `batch > 1`). -/
def ucExpand {α : Type} (batch : ℕ) (uc : List α) : List α :=
  if 1 < batch then (List.replicate batch uc).join else uc

/-- `cs = cs.repeat_interleave(self.a.batch, 0)`: repeats each conditional row
`batch` times in place (executed only when `batch > 1`). -/
def csExpand {α : Type} (batch : ℕ) (cs : List α) : List α :=
  if 1 < batch then cs.bind (fun r => List.replicate batch r) else cs

/-- The conditioning selection of `generate`:
`conds = uc if cfg_scale==0 else cs[:self.a.batch] if cfg_scale==1 else
torch.cat([uc, cs]) if ilat is None else torch.cat([uc, uc, cs])`,
run after the batch expansion of `uc` and `cs`. -/
def condsSelect {α : Type} (batch : ℕ) (cfg : ℚ) (ilatSome : Bool) (uc cs : List α) : List α :=
  let u := ucExpand batch uc
  let c := csExpand batch cs
  if cfg = 0 then u
  else if cfg = 1 then c.take batch
  else if ilatSome = false then u ++ c
  else u ++ u ++ c

/-- The guidance accumulation loop of `generate`:
`for i in range(...): noise_pred = noise_pred + (noises[i+..] - ref) * cfg_scale * cws[i % len(cws)]`,
with `ref` the prediction subtracted inside the parenthesis (`noises[0]` on the
standard branch, `noises[1]` on the instruct-pix2pix branch) and `acc` the
running `noise_pred`. -/
def guideLoop (ref cfg : ℚ) (cws : List ℚ) : ℕ → ℚ → List ℚ → ℚ
  | _, acc, [] => acc
  | i, acc, t :: ts =>
      guideLoop ref cfg cws (i + 1)
        (acc + (t - ref) * cfg * cws.getD (i % cws.length) 0) ts

/-- Standard classifier-free guidance in `generate`: `noise_pred = noises[0]`
then one weighted correction per remaining prediction. -/
def noisePredStandard (cfg : ℚ) (cws : List ℚ) (noises : List ℚ) : ℚ :=
  match noises with
  | [] => 0
  | n0 :: rest => guideLoop n0 cfg cws 0 n0 rest

/-- Instruct-pix2pix guidance in `generate`:
`noise_pred = noises[0] + self.a.img_scale * (noises[1] - noises[0])` then one
weighted correction per text prediction, each measured against `noises[1]`. -/
def noisePredPix2pix (img_scale cfg : ℚ) (cws : List ℚ) (noises : List ℚ) : ℚ :=
  match noises with
  | n0 :: n1 :: rest => guideLoop n1 cfg cws 0 (n0 + img_scale * (n1 - n0)) rest
  | _ => 0

/-- The standard-branch noise estimate as `generate` produces it: the weight
vector is normalised by `cwsFix` before the combination runs on the
predictions `[uncond, text1, ..., textN]`. -/
def generateNoiseStandard (cws : Option (List ℚ)) (cfg u : ℚ) (texts : List ℚ) : ℚ :=
  noisePredStandard cfg (cwsFix cws texts.length) (u :: texts)

/-- The pix2pix-branch noise estimate as `generate` produces it, on the
predictions `[uncond, image-guided, text1, ..., textN]`. -/
def generateNoiseP2P (cws : Option (List ℚ)) (img_scale cfg u g : ℚ) (texts : List ℚ) : ℚ :=
  noisePredPix2pix img_scale cfg (cwsFix cws texts.length) (u :: g :: texts)

/-- Side-channel injection on the denoiser input in `generate`:
`if isok(mask, masked_lat) and self.inpaintmod: lat_in = torch.cat([lat_in, 1.-mask, masked_lat], dim=1)`
`elif isok(depth) and self.depthmod: lat_in = torch.cat([lat_in, depth], dim=1)`.
`x` and `maskedLat` are channel lists; `mask` and `depth` are single channels. -/
def lat_in (inpaintmod depthmod : Bool) (mask : Option ℚ) (maskedLat : Option (List ℚ))
    (depth : Option ℚ) (x : List ℚ) : List ℚ :=
  if isok mask = true ∧ isok maskedLat = true ∧ inpaintmod = true then
    x ++ (1 - mask.getD 0) :: maskedLat.getD []
  else if isok depth = true ∧ depthmod = true then
    x ++ [depth.getD 0]
  else x

/-- The post-loop compositing in `generate`:
`if isok(mask, masked_lat) and not self.inpaintmod: lat = masked_lat * mask + lat * (1.-mask)`. -/
def maskComposite (inpaintmod : Bool) (mask maskedLat : Option ℚ) (lat : ℚ) : ℚ :=
  match mask, maskedLat with
  | some m, some ml => if inpaintmod = false then ml * m + lat * (1 - m) else lat
  | _, _ => lat

/-! Helper lemmas. -/

lemma foldl_count (stepFn : ℚ → ℚ → ℚ) :
    ∀ (l : List ℚ) (x : ℚ) (n : ℕ),
      (l.foldl (fun p t => (stepFn t p.1, p.2 + 1)) (x, n)).2 = n + l.length := by
  intro l
  induction l with
  | nil => intro x n; simp
  | cons t ts ih =>
      intro x n
      simp only [List.foldl]
      rw [ih]
      rw [List.length_cons]
      omega

lemma cwsFix_length (cws : Option (List ℚ)) (n : ℕ) : (cwsFix cws n).length = n := by
  cases cws with
  | none => simp [cwsFix]
  | some w =>
      by_cases h : w.length = n
      · simp [cwsFix, h]
      · simp [cwsFix, h]

lemma guideLoop_eq (ref cfg : ℚ) (cws : List ℚ) :
    ∀ (ts : List ℚ) (k : ℕ) (acc : ℚ),
      guideLoop ref cfg cws k acc ts
        = acc + ∑ i in Finset.range ts.length,
            (ts.getD i 0 - ref) * cfg * cws.getD ((k + i) % cws.length) 0 := by
  intro ts
  induction ts with
  | nil => intro k acc; simp [guideLoop]
  | cons t ts ih =>
      intro k acc
      rw [guideLoop]
      rw [ih]
      rw [List.length_cons, Finset.sum_range_succ']
      simp only [List.getD_cons_succ, List.getD_cons_zero, Nat.add_zero]
      have hsum :
          (∑ i in Finset.range ts.length,
              (ts.getD i 0 - ref) * cfg * cws.getD ((k + 1 + i) % cws.length) 0)
            = ∑ i in Finset.range ts.length,
                (ts.getD i 0 - ref) * cfg * cws.getD ((k + (i + 1)) % cws.length) 0 := by
        refine Finset.sum_congr rfl (fun i _ => ?_)
        have hidx : k + 1 + i = k + (i + 1) := by omega
        rw [hidx]
      rw [hsum]
      ring

lemma generateNoiseStandard_formula (cws : Option (List ℚ)) (cfg u : ℚ) (texts : List ℚ) :
    generateNoiseStandard cws cfg u texts
      = u + ∑ i in Finset.range texts.length,
          cfg * (cwsFix cws texts.length).getD i 0 * (texts.getD i 0 - u) := by
  have h := guideLoop_eq u cfg (cwsFix cws texts.length) texts 0 u
  have hlen := cwsFix_length cws texts.length
  calc generateNoiseStandard cws cfg u texts
      = guideLoop u cfg (cwsFix cws texts.length) 0 u texts := rfl
    _ = u + ∑ i in Finset.range texts.length,
          (texts.getD i 0 - u) * cfg
            * (cwsFix cws texts.length).getD ((0 + i) % (cwsFix cws texts.length).length) 0 := h
    _ = u + ∑ i in Finset.range texts.length,
          cfg * (cwsFix cws texts.length).getD i 0 * (texts.getD i 0 - u) := by
        refine congrArg (fun s => u + s) (Finset.sum_congr rfl (fun i hi => ?_))
        rw [hlen, Nat.zero_add, Nat.mod_eq_of_lt (Finset.mem_range.1 hi)]
        ring

lemma generateNoiseP2P_formula (cws : Option (List ℚ)) (img_scale cfg u g : ℚ)
    (texts : List ℚ) :
    generateNoiseP2P cws img_scale cfg u g texts
      = u + img_scale * (g - u)
        + ∑ i in Finset.range texts.length,
            cfg * (cwsFix cws texts.length).getD i 0 * (texts.getD i 0 - g) := by
  have h := guideLoop_eq g cfg (cwsFix cws texts.length) texts 0 (u + img_scale * (g - u))
  have hlen := cwsFix_length cws texts.length
  calc generateNoiseP2P cws img_scale cfg u g texts
      = guideLoop g cfg (cwsFix cws texts.length) 0 (u + img_scale * (g - u)) texts := rfl
    _ = (u + img_scale * (g - u)) + ∑ i in Finset.range texts.length,
          (texts.getD i 0 - g) * cfg
            * (cwsFix cws texts.length).getD ((0 + i) % (cwsFix cws texts.length).length) 0 := h
    _ = u + img_scale * (g - u) + ∑ i in Finset.range texts.length,
          cfg * (cwsFix cws texts.length).getD i 0 * (texts.getD i 0 - g) := by
        refine congrArg (fun s => u + img_scale * (g - u) + s)
          (Finset.sum_congr rfl (fun i hi => ?_))
        rw [hlen, Nat.zero_add, Nat.mod_eq_of_lt (Finset.mem_range.1 hi)]
        ring

/-! Claim theorems. -/

/-- Claim C1, amended: `set_steps` stores the last
`min(int(steps*strength), steps) + warmup` entries of the full descending
schedule (Python `int` truncates; the claim's `round` is wrong), so its length
is that count clamped by the full schedule's length; and the residual-family
sampling loop of `generate` performs exactly `len(schedule) - offset` denoise
calls. -/
theorem C1_schedule_and_loop_corrected (full : List ℚ) (steps warmup offset : ℕ)
    (strength : ℚ) (stepFn : ℚ → ℚ → ℚ) (lat0 : ℚ) (hW : 1 ≤ warmup)
    (hoff : offset ≤ (set_steps full steps strength warmup).length) :
    (set_steps full steps strength warmup).length
        = min (effSteps steps strength + warmup) full.length
      ∧ set_steps full steps strength warmup
        = full.drop (full.length - (effSteps steps strength + warmup))
      ∧ (sampleLoop stepFn (set_steps full steps strength warmup) offset lat0).2
        = (set_steps full steps strength warmup).length - offset := by
  have hk : effSteps steps strength + warmup ≠ 0 := by omega
  have hdrop : set_steps full steps strength warmup
      = full.drop (full.length - (effSteps steps strength + warmup)) := by
    unfold set_steps pySliceLast
    rw [if_neg hk]
  refine ⟨?_, hdrop, ?_⟩
  · rw [hdrop, List.length_drop]
    omega
  · unfold sampleLoop
    rw [foldl_count, List.length_drop]
    omega

/-- Claim C1, witness: steps = 3, strength = 1/2, warmup = 1 on a 4-entry full
schedule keeps the last 2 entries and the loop performs 2 denoise calls. -/
theorem C1_witness :
    1 ≤ 1
    ∧ 0 ≤ (set_steps [3, 2, 1, 0] 3 (1/2) 1).length
    ∧ ((set_steps [3, 2, 1, 0] 3 (1/2) 1).length
          = min (effSteps 3 (1/2) + 1) (List.length [(3 : ℚ), 2, 1, 0])
        ∧ set_steps [3, 2, 1, 0] 3 (1/2) 1
          = List.drop (List.length [(3 : ℚ), 2, 1, 0] - (effSteps 3 (1/2) + 1)) [3, 2, 1, 0]
        ∧ (sampleLoop (fun _ l => l) (set_steps [3, 2, 1, 0] 3 (1/2) 1) 0 0).2
          = (set_steps [3, 2, 1, 0] 3 (1/2) 1).length - 0) :=
  ⟨le_refl 1, Nat.zero_le _,
    C1_schedule_and_loop_corrected [3, 2, 1, 0] 3 1 0 (1/2) (fun _ l => l) 0
      (le_refl 1) (Nat.zero_le _)⟩

/-- Claim C1, counterexample to the original statement: with steps = 10,
strength = 37/100, warmup = 1 on a 12-entry full schedule, the stored schedule
has length `min(int(3.7), 10) + 1 = 4`, not `min(round(3.7), 10) + 1 = 5`. -/
theorem C1_counterexample :
    (set_steps [11, 10, 9, 8, 7, 6, 5, 4, 3, 2, 1, 0] 10 (37/100) 1).length
      ≠ min (round ((10 : ℚ) * (37/100))).toNat 10 + 1 := by
  have hfl : ⌊((10 : ℕ) : ℚ) * (37/100)⌋ = 3 := by
    rw [Int.floor_eq_iff]
    constructor <;> norm_num
  have hrd : round ((10 : ℚ) * (37/100)) = 4 := by
    rw [round_eq, Int.floor_eq_iff]
    constructor <;> norm_num
  have heff : effSteps 10 (37/100) = 3 := by
    unfold effSteps
    rw [hfl]
    rfl
  have hlen : (set_steps [11, 10, 9, 8, 7, 6, 5, 4, 3, 2, 1, 0] 10 (37/100) 1).length = 4 := by
    unfold set_steps pySliceLast
    rw [heff]
    norm_num
  rw [hlen, hrd]
  decide

/-- Claim C2, amended: on the standard multi-prompt branch the combined noise
equals `uncond + Σ_i cfg_scale * w_i * (text_i - uncond)` where `w` is the
caller's weight vector only when its length matches the prompt count, and the
uniform vector `1/N` otherwise — a shorter weight vector is replaced, not
wrapped modulo its length.  The two-prompt scenario with weights `[0.3, 0.7]`
and `cfg_scale = 7` holds as stated. -/
theorem C2_guidance_corrected :
    (∀ (cws : Option (List ℚ)) (cfg u : ℚ) (texts : List ℚ),
        generateNoiseStandard cws cfg u texts
          = u + ∑ i in Finset.range texts.length,
              cfg * (cwsFix cws texts.length).getD i 0 * (texts.getD i 0 - u))
    ∧ (∀ (u t1 t2 : ℚ),
        generateNoiseStandard (some [3/10, 7/10]) 7 u [t1, t2]
          = u + 7 * ((3/10) * (t1 - u) + (7/10) * (t2 - u))) := by
  constructor
  · intro cws cfg u texts
    exact generateNoiseStandard_formula cws cfg u texts
  · intro u t1 t2
    rw [generateNoiseStandard_formula]
    simp [cwsFix, Finset.sum_range_succ, List.getD]
    ring

/-- Claim C2, counterexample to the original statement: with two prompts and
the single weight `[3/10]`, the claimed modulo wrap would give
`uncond + 7*(3/10)*(t1-u) + 7*(3/10)*(t2-u)`; the code replaces the
mismatched-length weight vector by the uniform `[1/2, 1/2]` instead. -/
theorem C2_counterexample :
    generateNoiseStandard (some [3/10]) 7 0 [1, 2]
      ≠ 0 + 7 * (3/10) * (1 - 0) + 7 * (3/10) * (2 - 0) := by
  have h : generateNoiseStandard (some [3/10]) 7 0 [1, 2] = 21/2 := by
    simp [generateNoiseStandard, noisePredStandard, cwsFix, guideLoop,
      List.replicate, List.getD]
    norm_num
  rw [h]
  norm_num

/-- Claim C3: the conditioning tensor is the expanded unconditional block when
`cfg_scale = 0`, the first `batch` rows of the expanded conditional block when
`cfg_scale = 1`, and otherwise `[uncond, cond...]` without a pixel-edit latent
or `[uncond, uncond, cond...]` with one; expansion to batch size happens
before the selection. -/
theorem C3_conds_confirmed :
    ∀ {α : Type} (batch : ℕ) (cfg : ℚ) (il : Bool) (uc cs : List α),
      (cfg = 0 → condsSelect batch cfg il uc cs = ucExpand batch uc)
      ∧ (cfg ≠ 0 → cfg = 1 →
          condsSelect batch cfg il uc cs = (csExpand batch cs).take batch)
      ∧ (cfg ≠ 0 → cfg ≠ 1 → il = false →
          condsSelect batch cfg il uc cs = ucExpand batch uc ++ csExpand batch cs)
      ∧ (cfg ≠ 0 → cfg ≠ 1 → il = true →
          condsSelect batch cfg il uc cs
            = ucExpand batch uc ++ ucExpand batch uc ++ csExpand batch cs) := by
  intro α batch cfg il uc cs
  refine ⟨?_, ?_, ?_, ?_⟩
  · intro h; simp [condsSelect, h]
  · intro h0 h1; simp [condsSelect, h0, h1]
  · intro h0 h1 hil; simp [condsSelect, h0, h1, hil]
  · intro h0 h1 hil; simp [condsSelect, h0, h1, hil]

/-- Claim C3, witness: batch 2, cfg_scale 7, pixel-edit latent present. -/
theorem C3_witness :
    (7 : ℚ) ≠ 0 ∧ (7 : ℚ) ≠ 1
    ∧ condsSelect 2 (7 : ℚ) true [10] [1, 2]
        = ucExpand 2 [10] ++ ucExpand 2 [10] ++ csExpand 2 [1, 2] :=
  ⟨by norm_num, by norm_num,
    (C3_conds_confirmed 2 (7 : ℚ) true [10] [1, 2]).2.2.2
      (by norm_num) (by norm_num) rfl⟩

/-- Claim C4, amended: with a standard (non-inpaint-architecture) model and
mask plus masked-latent present, the final latent handed to the decoder is the
blend `masked_lat * mask + lat * (1 - mask)`; hence at points where the mask
is 1 the result is the original masked-latent, and at points where the mask is
0 it is the freshly generated latent (the opposite assignment to the claim's
reading of `M == 0`). -/
theorem C4_composite_corrected :
    ∀ (m ml lat : ℚ),
      maskComposite false (some m) (some ml) lat = ml * m + lat * (1 - m)
      ∧ (m = 1 → maskComposite false (some m) (some ml) lat = ml)
      ∧ (m = 0 → maskComposite false (some m) (some ml) lat = lat)
      ∧ maskComposite true (some m) (some ml) lat = lat := by
  intro m ml lat
  refine ⟨rfl, ?_, ?_, rfl⟩
  · rintro rfl
    show ml * 1 + lat * (1 - 1) = ml
    ring
  · rintro rfl
    show ml * 0 + lat * (1 - 0) = lat
    ring

/-- Claim C4, witness: mask value 0 yields the fresh latent, mask value 1 the
original masked-latent. -/
theorem C4_witness :
    maskComposite false (some 0) (some 5) 3 = 3
    ∧ maskComposite false (some 1) (some 5) 3 = 5 :=
  ⟨(C4_composite_corrected 0 5 3).2.2.1 rfl,
   (C4_composite_corrected 1 5 3).2.1 rfl⟩

/-- Claim C4, counterexample to the original statement: at a point with
`M == 0` the composited latent equals the freshly generated latent (value 3),
not the original masked-latent (value 5). -/
theorem C4_counterexample :
    ¬ maskComposite false (some 0) (some 5) 3 = 5 := by
  have h : maskComposite false (some 0) (some 5) 3 = 3 := by
    show (5 : ℚ) * 0 + 3 * (1 - 0) = 3
    norm_num
  rw [h]
  norm_num

/-- Claim C5: on the pixel-edit branch the combined noise equals
`uncond + img_scale * (image_guided - uncond) + Σ_i cfg_scale * w_i * (text_i - image_guided)`
over the predictions `[uncond, image-guided, text1, ..., textN]`, with `w` the
run's effective weight vector. -/
theorem C5_pix2pix_confirmed :
    ∀ (cws : Option (List ℚ)) (img_scale cfg u g : ℚ) (texts : List ℚ),
      generateNoiseP2P cws img_scale cfg u g texts
        = u + img_scale * (g - u)
          + ∑ i in Finset.range texts.length,
              cfg * (cwsFix cws texts.length).getD i 0 * (texts.getD i 0 - g) := by
  intro cws img_scale cfg u g texts
  exact generateNoiseP2P_formula cws img_scale cfg u g texts

/-- Claim C6: with mask and masked-latent present and an inpaint-variant
model, the denoiser input is `[latent, 1-mask, masked_latent]` along the
channel axis; otherwise with a depth map and a depth-variant model it is
`[latent, depth]`; the inpaint branch shadows the depth branch, so no call
receives both, and no channel count makes a model both variants at once. -/
theorem C6_side_channel_confirmed :
    ∀ (ipm dpm : Bool) (mask : Option ℚ) (maskedLat : Option (List ℚ))
      (depth : Option ℚ) (x : List ℚ) (m d : ℚ) (ml : List ℚ),
      lat_in true dpm (some m) (some ml) depth x = x ++ (1 - m) :: ml
      ∧ (¬ (isok mask = true ∧ isok maskedLat = true ∧ ipm = true) →
          lat_in ipm true mask maskedLat (some d) x = x ++ [d])
      ∧ lat_in true true (some m) (some ml) (some d) x = x ++ (1 - m) :: ml
      ∧ ∀ u : ℕ, ¬ (inpaintmodOf u = true ∧ depthmodOf u = true) := by
  intro ipm dpm mask maskedLat depth x m d ml
  refine ⟨?_, ?_, ?_, ?_⟩
  · simp [lat_in, isok]
  · intro h
    unfold lat_in
    rw [if_neg h, if_pos ⟨rfl, rfl⟩]
    rfl
  · simp [lat_in, isok]
  · intro u hu
    obtain ⟨h9, h5⟩ := hu
    simp [inpaintmodOf, depthmodOf] at h9 h5
    omega

/-- Claim C6, witness: no mask present, depth map present with a depth-variant
model appends exactly the depth channel. -/
theorem C6_witness :
    ¬ (isok (none : Option ℚ) = true ∧ isok (none : Option (List ℚ)) = true ∧ false = true)
    ∧ lat_in false true (none : Option ℚ) (none : Option (List ℚ)) (some 2) [0]
        = [0] ++ [2] :=
  ⟨by decide,
    (C6_side_channel_confirmed false true none none (some 2) [0] 1 2 []).2.1 (by decide)⟩

/-- Claim C7: an inpainting-architecture model (9 denoiser input channels)
without a configured mask makes `final_setup` fail with the fatal inpaint
error, before any schedule is built or sampling step runs. -/
theorem C7_inpaint_requires_mask :
    ∀ (use_cnet : Bool) (a : Args) (full : List ℚ),
      a.mask = none →
      final_setup 9 use_cnet a full
        = Except.error ("!! Inpainting model requires mask !!") := by
  intro ucn a full h
  have hc : inpaintmodOf 9 = true ∧ isok a.mask = false := by
    refine ⟨rfl, ?_⟩
    rw [h]
    rfl
  unfold final_setup
  rw [if_pos hc]

/-- Claim C7, witness. -/
theorem C7_witness :
    (Args.mk none none 7 50 1).mask = none
    ∧ final_setup 9 false (Args.mk none none 7 50 1) []
        = Except.error ("!! Inpainting model requires mask !!") :=
  ⟨rfl, C7_inpaint_requires_mask false (Args.mk none none 7 50 1) [] rfl⟩

/-- Claim C8: requesting pixel-edit guidance (img_scale set) together with a
loaded control network makes `final_setup` fail with a fatal error during
setup, whatever the other configuration fields are. -/
theorem C8_p2p_cnet_conflict :
    ∀ (uchannels : ℕ) (a : Args) (full : List ℚ),
      isok a.img_scale = true →
      ∃ e, final_setup uchannels true a full = Except.error e := by
  intro uch a full himg
  unfold final_setup
  by_cases h1 : inpaintmodOf uch = true ∧ isok a.mask = false
  · exact ⟨_, by rw [if_pos h1]⟩
  · exact ⟨_, by rw [if_neg h1, if_pos himg, if_pos (Or.inl rfl)]⟩

/-- Claim C8, witness. -/
theorem C8_witness :
    isok (Args.mk none (some 1) 7 50 1).img_scale = true
    ∧ ∃ e, final_setup 4 true (Args.mk none (some 1) 7 50 1) [1, 0] = Except.error e :=
  ⟨rfl, C8_p2p_cnet_conflict 4 (Args.mk none (some 1) 7 50 1) [1, 0] rfl⟩

/-- Claim C9: with img_scale set, `final_setup` also fails fatally when
cfg_scale is 0 or 1; when the pixel-edit checks pass it unconditionally
overwrites the configured strength with 1 before building the schedule, and
with strength 1 the stored schedule is the whole full schedule whenever the
full schedule has at most `steps + 1` entries. -/
theorem C9_p2p_setup :
    ∀ (uchannels : ℕ) (use_cnet : Bool) (a : Args) (full : List ℚ),
      (isok a.img_scale = true → (a.cfg_scale = 0 ∨ a.cfg_scale = 1) →
          ∃ e, final_setup uchannels use_cnet a full = Except.error e)
      ∧ (¬ (inpaintmodOf uchannels = true ∧ isok a.mask = false) →
          isok a.img_scale = true → use_cnet = false →
          a.cfg_scale ≠ 0 → a.cfg_scale ≠ 1 →
          final_setup uchannels use_cnet a full
            = Except.ok (Args.mk a.mask a.img_scale a.cfg_scale a.steps 1,
                set_steps full a.steps 1 1))
      ∧ (full.length ≤ a.steps + 1 → set_steps full a.steps 1 1 = full) := by
  intro uch ucn a full
  refine ⟨?_, ?_, ?_⟩
  · intro himg hcfg
    unfold final_setup
    by_cases h1 : inpaintmodOf uch = true ∧ isok a.mask = false
    · exact ⟨_, by rw [if_pos h1]⟩
    · exact ⟨_, by rw [if_neg h1, if_pos himg, if_pos (Or.inr hcfg)]⟩
  · intro h1 himg hcn h0 hone
    have hcond : ¬ (ucn = true ∨ a.cfg_scale = 0 ∨ a.cfg_scale = 1) := by
      rintro (hc | hc | hc)
      · rw [hcn] at hc
        exact Bool.false_ne_true hc
      · exact h0 hc
      · exact hone hc
    unfold final_setup
    rw [if_neg h1, if_pos himg, if_neg hcond]
  · intro hlen
    have heff : effSteps a.steps 1 = a.steps := by
      unfold effSteps
      rw [mul_one, Int.floor_natCast, Int.toNat_natCast, min_self]
    unfold set_steps pySliceLast
    rw [heff]
    rw [if_neg (Nat.succ_ne_zero a.steps)]
    rw [Nat.sub_eq_zero_of_le hlen, List.drop_zero]

/-- Claim C9, witness: cfg_scale 0 with img_scale set errors; cfg_scale 7 with
img_scale set and no control network succeeds with strength forced to 1 and
keeps the whole 6-entry full schedule for 5 steps. -/
theorem C9_witness :
    (∃ e, final_setup 4 false (Args.mk none (some (3/2)) 0 5 (1/2)) [5, 4, 3, 2, 1, 0]
        = Except.error e)
    ∧ final_setup 4 false (Args.mk none (some (3/2)) 7 5 (1/2)) [5, 4, 3, 2, 1, 0]
        = Except.ok (Args.mk none (some (3/2)) 7 5 1, set_steps [5, 4, 3, 2, 1, 0] 5 1 1)
    ∧ set_steps [5, 4, 3, 2, 1, 0] 5 1 1 = [5, 4, 3, 2, 1, 0] :=
  ⟨(C9_p2p_setup 4 false (Args.mk none (some (3/2)) 0 5 (1/2)) [5, 4, 3, 2, 1, 0]).1
      rfl (Or.inl rfl),
   (C9_p2p_setup 4 false (Args.mk none (some (3/2)) 7 5 (1/2)) [5, 4, 3, 2, 1, 0]).2.1
      (by decide) rfl rfl (by decide) (by decide),
   (C9_p2p_setup 4 false (Args.mk none (some (3/2)) 7 5 (1/2)) [5, 4, 3, 2, 1, 0]).2.2
      (by decide)⟩

/-- Claim C10, amended: a falsy seed argument (0 or none) is not used as the
seed; the stored value is the time-derived `int((time.time()%1)*69696)`, which
lies in `[0, 69696)` but may itself be 0, so in that boundary case the fresh
generator is still seeded with 0.  A nonzero seed is stored as given, and
every call builds a fresh generator from the stored value. -/
theorem C10_setseed_corrected :
    ∀ (tf : ℚ), 0 ≤ tf → tf < 1 →
      (setseed none tf).1 = timeSeed tf
      ∧ (setseed (some 0) tf).1 = timeSeed tf
      ∧ timeSeed tf < 69696
      ∧ (∀ k : ℕ, k ≠ 0 → (setseed (some k) tf).1 = k)
      ∧ ∀ sd : Option ℕ, (setseed sd tf).2 = Generator.mk ((setseed sd tf).1) := by
  intro tf h0 h1
  refine ⟨rfl, rfl, ?_, ?_, fun sd => rfl⟩
  · unfold timeSeed
    have hx : tf * 69696 < 69696 := by nlinarith
    have hfl : ⌊tf * 69696⌋ < (69696 : ℤ) := by
      rw [Int.floor_lt]
      push_cast
      exact hx
    omega
  · intro k hk
    simp [setseed, storedSeed, hk]

/-- Claim C10, witness: time fraction 1/2 gives stored seed 34848. -/
theorem C10_witness :
    (0 : ℚ) ≤ 1/2 ∧ (1/2 : ℚ) < 1
    ∧ ((setseed none (1/2)).1 = timeSeed (1/2)
        ∧ (setseed (some 0) (1/2)).1 = timeSeed (1/2)
        ∧ timeSeed (1/2) < 69696
        ∧ (∀ k : ℕ, k ≠ 0 → (setseed (some k) (1/2)).1 = k)
        ∧ ∀ sd : Option ℕ, (setseed sd (1/2)).2 = Generator.mk ((setseed sd (1/2)).1)) :=
  ⟨by norm_num, by norm_num,
    C10_setseed_corrected (1/2) (by norm_num) (by norm_num)⟩

/-- Claim C10, counterexample to the original statement: with time fraction 0,
calling `setseed` with seed 0 stores 0 and seeds the fresh generator with 0. -/
theorem C10_counterexample :
    (setseed (some 0) 0).1 = 0 ∧ (setseed (some 0) 0).2.seedVal = 0 := by
  have h : storedSeed (some 0) 0 = 0 := by
    simp [storedSeed, timeSeed]
  exact ⟨h, h⟩

end SDfu
